import Mathlib

/-!
Shallow embedding of the asynchronous chunk-embedding ingestion pipeline of
the Multi-Tenant-Document-Intelligence repository, together with proofs about
the properties its specification states.

Embedded sources:
* `src/app/utils/chunking.py`        — `FixedSizeChunking.chunk`
* `src/app/workers/v2/consumer.py`   — `KafkaConsumer._deserialize_message`,
  `_process_message_with_retry`, `_handle_processing_error`
* `src/app/workers/v2/producer.py`   — `KafkaProducer.publish_job`
* `src/app/workers/v2/tasks.py`      — `TaskProcessor._validate_job_data`,
  `_update_job_status`, `process_ingestion_job`
* `src/app/workers/v2/worker.py`     — `HealthMonitor.check_health`

Machine integers are modelled by `Int` (Python integers are unbounded);
Python strings by `String` (slicing acts on code points); values that can be
absent by `Option`; the non-terminating `while` loop of fixed-size chunking
by a fuel-indexed recursion that returns `none` when the fuel runs out, so
that non-termination of the source loop is expressible.
-/

/- ------------------------------------------------------------------ -/
/- `FixedSizeChunking.chunk` (src/app/utils/chunking.py, lines 17-34) -/
/- ------------------------------------------------------------------ -/

/-- One chunk record produced by `FixedSizeChunking.chunk`: the `start_char`
and `end_char` fields of the emitted dict.  The `text` field is the slice
`text[start:end]` and `chunk_size` its length, both determined by these two
numbers, so they are not repeated here. -/
structure ChunkWindow where
  start_char : Int
  end_char : Int
deriving Repr, DecidableEq

/-- The `while start < len(text)` loop of `FixedSizeChunking.chunk`.

```
while start < len(text):
    end = min(start + chunk_size, len(text))
    chunks.append({... "start_char": start, "end_char": end ...})
    start += chunk_size - overlap
```

The loop body has no guard on `chunk_size - overlap`, so when the step is
not positive the loop never terminates; the recursion is therefore indexed
by fuel and yields `none` when the fuel is exhausted, `some chunks` when the
source loop finishes within that many iterations.  `start` is an unbounded
Python integer, hence `Int`. -/
def fixedChunkLoop (textLen : Nat) (chunkSize overlap : Int) :
    Nat → Int → Option (List ChunkWindow)
  | 0, _ => none
  | fuel + 1, start =>
    if start < (textLen : Int) then
      match fixedChunkLoop textLen chunkSize overlap fuel (start + (chunkSize - overlap)) with
      | none => none
      | some ws => some (⟨start, min (start + chunkSize) (textLen : Int)⟩ :: ws)
    else
      some []

/-- Entry point of `FixedSizeChunking.chunk`: the loop started at `start = 0`. -/
def fixedSizeChunk (fuel : Nat) (textLen : Nat) (chunkSize overlap : Int) :
    Option (List ChunkWindow) :=
  fixedChunkLoop textLen chunkSize overlap fuel 0

/- Basic inversion lemmas about the loop. -/

theorem fixedChunkLoop_zero (textLen : Nat) (cs ov : Int) (start : Int) :
    fixedChunkLoop textLen cs ov 0 start = none := rfl

theorem fixedChunkLoop_succ_lt (textLen : Nat) (cs ov : Int) (fuel : Nat) (start : Int)
    (h : start < (textLen : Int)) :
    fixedChunkLoop textLen cs ov (fuel + 1) start =
      match fixedChunkLoop textLen cs ov fuel (start + (cs - ov)) with
      | none => none
      | some ws => some (⟨start, min (start + cs) (textLen : Int)⟩ :: ws) := by
  simp [fixedChunkLoop, h]

theorem fixedChunkLoop_succ_ge (textLen : Nat) (cs ov : Int) (fuel : Nat) (start : Int)
    (h : ¬ start < (textLen : Int)) :
    fixedChunkLoop textLen cs ov (fuel + 1) start = some [] := by
  simp [fixedChunkLoop, h]

/-- With a non-positive step (`overlap ≥ chunk_size`) and a start position
left of the end of a non-empty text, the loop never produces a result: every
amount of fuel is exhausted. -/
theorem fixedChunkLoop_no_progress (textLen : Nat) (cs ov : Int)
    (hov : cs ≤ ov) (hlen : 0 < textLen) :
    ∀ (fuel : Nat) (start : Int), start ≤ 0 →
      fixedChunkLoop textLen cs ov fuel start = none := by
  intro fuel
  induction fuel with
  | zero => intro start _; rfl
  | succ n ih =>
    intro start hs
    have hlt : start < (textLen : Int) := by
      have : (0 : Int) < (textLen : Int) := by exact_mod_cast hlen
      omega
    rw [fixedChunkLoop_succ_lt textLen cs ov n start hlt]
    have : fixedChunkLoop textLen cs ov n (start + (cs - ov)) = none := by
      apply ih
      omega
    rw [this]

/-- Positive step: enough fuel makes the loop terminate with a result. -/
theorem fixedChunkLoop_some_of_pos_step (textLen : Nat) (cs ov : Int) (hstep : 0 < cs - ov) :
    ∀ (fuel : Nat) (start : Int), max 0 ((textLen : Int) - start) < fuel →
      ∃ ws, fixedChunkLoop textLen cs ov fuel start = some ws := by
  intro fuel
  induction fuel with
  | zero => intro start h; omega
  | succ n ih =>
    intro start h
    by_cases hlt : start < (textLen : Int)
    · obtain ⟨ws, hws⟩ := ih (start + (cs - ov)) (by omega)
      rw [fixedChunkLoop_succ_lt _ _ _ _ _ hlt, hws]
      exact ⟨_, rfl⟩
    · rw [fixedChunkLoop_succ_ge _ _ _ _ _ hlt]
      exact ⟨[], rfl⟩

/-- The head of a non-empty loop result is the window emitted at `start`. -/
theorem fixedChunkLoop_head_start (textLen : Nat) (cs ov : Int) (fuel : Nat) (start : Int)
    (w : ChunkWindow) (l : List ChunkWindow)
    (h : fixedChunkLoop textLen cs ov fuel start = some (w :: l)) :
    w.start_char = start ∧ w.end_char = min (start + cs) (textLen : Int) := by
  cases fuel with
  | zero => simp [fixedChunkLoop] at h
  | succ n =>
    by_cases hlt : start < (textLen : Int)
    · rw [fixedChunkLoop_succ_lt _ _ _ _ _ hlt] at h
      cases hrec : fixedChunkLoop textLen cs ov n (start + (cs - ov)) with
      | none => rw [hrec] at h; simp at h
      | some ws' =>
        rw [hrec] at h
        simp only [Option.some.injEq, List.cons.injEq] at h
        rw [← h.1]
        exact ⟨rfl, rfl⟩
    · rw [fixedChunkLoop_succ_ge _ _ _ _ _ hlt] at h
      simp at h

/-- Every window in a loop result starts no earlier than the loop's current
position, is non-degenerate, ends at `min (start + chunk_size) textLen`, and
stays inside the text. -/
theorem fixedChunkLoop_mem_bounds (textLen : Nat) (cs ov : Int)
    (hstep : 0 < cs - ov) (hov : 0 ≤ ov) :
    ∀ (fuel : Nat) (start : Int) (ws : List ChunkWindow),
      fixedChunkLoop textLen cs ov fuel start = some ws →
      ∀ w ∈ ws, start ≤ w.start_char ∧ w.start_char < w.end_char ∧
        w.end_char = min (w.start_char + cs) (textLen : Int) ∧
        w.end_char ≤ (textLen : Int) ∧ w.start_char < (textLen : Int) := by
  intro fuel
  induction fuel with
  | zero => intro start ws h; simp [fixedChunkLoop] at h
  | succ n ih =>
    intro start ws h
    by_cases hlt : start < (textLen : Int)
    · rw [fixedChunkLoop_succ_lt _ _ _ _ _ hlt] at h
      cases hrec : fixedChunkLoop textLen cs ov n (start + (cs - ov)) with
      | none => rw [hrec] at h; simp at h
      | some ws' =>
        rw [hrec] at h
        simp only [Option.some.injEq] at h
        subst h
        intro w hw
        rcases List.mem_cons.mp hw with hw0 | hw'
        · subst hw0
          refine ⟨le_refl _, ?_, rfl, min_le_right _ _, hlt⟩
          simp only
          omega
        · have := ih (start + (cs - ov)) ws' hrec w hw'
          exact ⟨by omega, this.2⟩
    · rw [fixedChunkLoop_succ_ge _ _ _ _ _ hlt] at h
      simp only [Option.some.injEq] at h
      subst h
      intro w hw
      simp at hw

/-- Consecutive windows: each next window starts exactly
`chunk_size - overlap` after the previous one. -/
theorem fixedChunkLoop_chain_step (textLen : Nat) (cs ov : Int) :
    ∀ (fuel : Nat) (start : Int) (ws : List ChunkWindow),
      fixedChunkLoop textLen cs ov fuel start = some ws →
      List.Chain' (fun a b => b.start_char = a.start_char + (cs - ov)) ws := by
  intro fuel
  induction fuel with
  | zero => intro start ws h; simp [fixedChunkLoop] at h
  | succ n ih =>
    intro start ws h
    by_cases hlt : start < (textLen : Int)
    · rw [fixedChunkLoop_succ_lt _ _ _ _ _ hlt] at h
      cases hrec : fixedChunkLoop textLen cs ov n (start + (cs - ov)) with
      | none => rw [hrec] at h; simp at h
      | some ws' =>
        rw [hrec] at h
        simp only [Option.some.injEq] at h
        subst h
        rw [List.chain'_cons']
        refine ⟨?_, ih _ _ hrec⟩
        intro y hy
        cases ws' with
        | nil => simp at hy
        | cons z l =>
          simp only [List.head?_cons, Option.mem_def, Option.some.injEq] at hy
          subst hy
          have := fixedChunkLoop_head_start textLen cs ov n (start + (cs - ov)) z l hrec
          simp [this.1]
    · rw [fixedChunkLoop_succ_ge _ _ _ _ _ hlt] at h
      simp only [Option.some.injEq] at h
      subst h
      exact List.chain'_nil

/-- Coverage: every position of the text at or after the loop's current
position lies inside some produced window. -/
theorem fixedChunkLoop_covers (textLen : Nat) (cs ov : Int) (hov : 0 ≤ ov) :
    ∀ (fuel : Nat) (start : Int) (ws : List ChunkWindow),
      fixedChunkLoop textLen cs ov fuel start = some ws →
      ∀ p : Int, start ≤ p → p < (textLen : Int) →
        ∃ w ∈ ws, w.start_char ≤ p ∧ p < w.end_char := by
  intro fuel
  induction fuel with
  | zero => intro start ws h; simp [fixedChunkLoop] at h
  | succ n ih =>
    intro start ws h p hsp hp
    have hlt : start < (textLen : Int) := by omega
    rw [fixedChunkLoop_succ_lt _ _ _ _ _ hlt] at h
    cases hrec : fixedChunkLoop textLen cs ov n (start + (cs - ov)) with
    | none => rw [hrec] at h; simp at h
    | some ws' =>
      rw [hrec] at h
      simp only [Option.some.injEq] at h
      subst h
      by_cases hpw : p < min (start + cs) (textLen : Int)
      · exact ⟨⟨start, min (start + cs) (textLen : Int)⟩, List.mem_cons_self _ _, hsp, hpw⟩
      · have hcs : start + cs ≤ p := by omega
        obtain ⟨w, hw, hle, hplt⟩ := ih (start + (cs - ov)) ws' hrec p (by omega) hp
        exact ⟨w, List.mem_cons_of_mem _ hw, hle, hplt⟩

/-- Overlap of consecutive windows: the previous window's end minus the next
window's start is `min overlap (textLen - next.start)` — exactly `overlap`
unless the previous window was truncated by the end of the text. -/
theorem fixedChunkLoop_chain_overlap (textLen : Nat) (cs ov : Int) :
    ∀ (fuel : Nat) (start : Int) (ws : List ChunkWindow),
      fixedChunkLoop textLen cs ov fuel start = some ws →
      List.Chain'
        (fun a b => a.end_char - b.start_char = min ov ((textLen : Int) - b.start_char)) ws := by
  intro fuel
  induction fuel with
  | zero => intro start ws h; simp [fixedChunkLoop] at h
  | succ n ih =>
    intro start ws h
    by_cases hlt : start < (textLen : Int)
    · rw [fixedChunkLoop_succ_lt _ _ _ _ _ hlt] at h
      cases hrec : fixedChunkLoop textLen cs ov n (start + (cs - ov)) with
      | none => rw [hrec] at h; simp at h
      | some ws' =>
        rw [hrec] at h
        simp only [Option.some.injEq] at h
        subst h
        rw [List.chain'_cons']
        refine ⟨?_, ih _ _ hrec⟩
        intro y hy
        cases ws' with
        | nil => simp at hy
        | cons z l =>
          simp only [List.head?_cons, Option.mem_def, Option.some.injEq] at hy
          subst hy
          have hz := fixedChunkLoop_head_start textLen cs ov n (start + (cs - ov)) z l hrec
          simp only [hz.1]
          omega
    · rw [fixedChunkLoop_succ_ge _ _ _ _ _ hlt] at h
      simp only [Option.some.injEq] at h
      subst h
      exact List.chain'_nil

/-- Claim C6: the spec demands that fixed-size chunking with
`overlap ≥ chunk_size` fail fast with a configuration error instead of
looping forever.  The code has no such guard: `chunk_size - overlap ≤ 0`
makes `start` never advance past 0, so on any non-empty text the loop runs
forever — no amount of fuel produces a result (and no error is signalled). -/
theorem C6_fixed_chunk_diverges (fuel : Nat) (textLen : Nat) (cs ov : Int)
    (hov : cs ≤ ov) (hlen : 0 < textLen) :
    fixedSizeChunk fuel textLen cs ov = none :=
  fixedChunkLoop_no_progress textLen cs ov hov hlen fuel 0 le_rfl

theorem C6_fixed_chunk_diverges_witness :
    (1 : Int) ≤ 1 ∧ 0 < 2 ∧ fixedSizeChunk 5 2 1 1 = none :=
  ⟨le_refl 1, by decide, C6_fixed_chunk_diverges 5 2 1 1 le_rfl (by decide)⟩

/-- Claim C7 (counterexample): the claim says every non-final window overlaps
the next by exactly `overlap`.  For text length 6, `chunk_size = 5`,
`overlap = 3` (which satisfies `chunk_size > overlap ≥ 0`) the produced
windows are `[0,5), [2,6), [4,6)`: the middle window is not final, yet it
overlaps the next one by `6 - 4 = 2 ≠ 3` characters, because it was
truncated by the end of the text. -/
theorem C7_fixed_chunk_overlap_counterexample :
    (0 : Int) ≤ 3 ∧ (3 : Int) < 5 ∧
    fixedSizeChunk 7 6 5 3 =
      some [⟨0, 5⟩, ⟨2, 6⟩, ⟨4, 6⟩] ∧
    ¬ List.Chain' (fun a b : ChunkWindow => a.end_char - b.start_char = (3 : Int))
        [⟨0, 5⟩, ⟨2, 6⟩, ⟨4, 6⟩] := by
  refine ⟨by decide, by decide, by decide, ?_⟩
  intro h
  have := (List.chain'_cons.mp (List.chain'_cons.mp h).2).1
  simp at this

/-- Claim C7 (amended): for all `chunk_size > overlap ≥ 0`, fixed-size
chunking terminates and covers `[0, len(text))` with consecutive in-order
windows stepping by `chunk_size - overlap`; each non-final window overlaps
the next by exactly `min overlap (len(text) - next.start)` characters —
equal to `overlap` except when the window is truncated by the text end. -/
theorem C7_fixed_chunk_windows (textLen : Nat) (cs ov : Int)
    (hov : 0 ≤ ov) (hlt : ov < cs) :
    ∃ ws, fixedSizeChunk (textLen + 1) textLen cs ov = some ws ∧
      (∀ w ∈ ws, 0 ≤ w.start_char ∧ w.start_char < w.end_char ∧
        w.end_char = min (w.start_char + cs) (textLen : Int) ∧
        w.end_char ≤ (textLen : Int)) ∧
      List.Chain' (fun a b => b.start_char = a.start_char + (cs - ov)) ws ∧
      (∀ p : Int, 0 ≤ p → p < (textLen : Int) →
        ∃ w ∈ ws, w.start_char ≤ p ∧ p < w.end_char) ∧
      List.Chain'
        (fun a b => a.end_char - b.start_char = min ov ((textLen : Int) - b.start_char)) ws := by
  have hstep : 0 < cs - ov := by omega
  obtain ⟨ws, hws⟩ :=
    fixedChunkLoop_some_of_pos_step textLen cs ov hstep (textLen + 1) 0 (by omega)
  refine ⟨ws, hws, ?_, ?_, ?_, ?_⟩
  · intro w hw
    have := fixedChunkLoop_mem_bounds textLen cs ov hstep hov (textLen + 1) 0 ws hws w hw
    exact ⟨this.1, this.2.1, this.2.2.1, this.2.2.2.1⟩
  · exact fixedChunkLoop_chain_step textLen cs ov _ _ _ hws
  · intro p hp hp2
    exact fixedChunkLoop_covers textLen cs ov hov _ _ _ hws p hp hp2
  · exact fixedChunkLoop_chain_overlap textLen cs ov _ _ _ hws

theorem C7_fixed_chunk_windows_witness :
    (0 : Int) ≤ 3 ∧ (3 : Int) < 5 ∧
    (∃ ws, fixedSizeChunk 7 6 5 3 = some ws ∧
      (∀ w ∈ ws, 0 ≤ w.start_char ∧ w.start_char < w.end_char ∧
        w.end_char = min (w.start_char + 5) ((6 : Nat) : Int) ∧
        w.end_char ≤ ((6 : Nat) : Int)) ∧
      List.Chain' (fun a b => b.start_char = a.start_char + (5 - 3)) ws ∧
      (∀ p : Int, 0 ≤ p → p < ((6 : Nat) : Int) →
        ∃ w ∈ ws, w.start_char ≤ p ∧ p < w.end_char) ∧
      List.Chain'
        (fun a b => a.end_char - b.start_char = min 3 (((6 : Nat) : Int) - b.start_char)) ws) :=
  ⟨by decide, by decide, C7_fixed_chunk_windows 6 5 3 (by decide) (by decide)⟩

/- ------------------------------------------------------------- -/
/- Python values and dicts carried by the ingestion-log messages -/
/- ------------------------------------------------------------- -/

/-- A Python value as it appears in the JSON message envelopes exchanged by
producer, consumer and worker.  `timestamp` stands for the opaque float
returned by `asyncio.get_event_loop().time()` / `time.time()`; nothing in
the embedded code inspects it.  Python floats appear nowhere else in the
message flow. -/
inductive PyVal where
  | none
  | bool (b : Bool)
  | int (n : Int)
  | str (s : String)
  | timestamp
  | dict (kvs : List (String × PyVal))
  | list (vs : List PyVal)
deriving Repr

/-- Python truthiness (`bool(v)`) for the values above.  A timestamp from a
running clock is a positive float, hence truthy. -/
def isTruthy : PyVal → Bool
  | .none => false
  | .bool b => b
  | .int n => n != 0
  | .str s => s != ""
  | .timestamp => true
  | .dict kvs => !kvs.isEmpty
  | .list vs => !vs.isEmpty

/-- Association-list model of a Python dict; `dget` is `d[k]` as a partial
lookup (first binding wins, and `dset` keeps at most one binding per key). -/
def dget : List (String × PyVal) → String → Option PyVal
  | [], _ => Option.none
  | (k, v) :: rest, key => if k = key then some v else dget rest key

/-- Membership test `k in d`. -/
def hasKey (d : List (String × PyVal)) (key : String) : Bool :=
  (dget d key).isSome

/-- Lookup `d.get(k)` / `d.get(k, None)`: a missing key yields Python `None`. -/
def pyGet (d : List (String × PyVal)) (key : String) : PyVal :=
  (dget d key).getD .none

/-- Update `{**d, k: v}` or `d[k] = v`: binding `k` to `v`.  Python preserves
insertion order, which no embedded observation depends on, so the binding is
kept in front and the stale one dropped. -/
def dset (d : List (String × PyVal)) (key : String) (v : PyVal) : List (String × PyVal) :=
  (key, v) :: d.filter (fun p => p.1 != key)

theorem dget_filter_ne (d : List (String × PyVal)) (k key : String) (h : ¬ key = k) :
    dget (d.filter (fun p => p.1 != k)) key = dget d key := by
  induction d with
  | nil => rfl
  | cons p rest ih =>
    by_cases hp : p.1 = k
    · have hb : (p.1 != k) = false := by simp [hp]
      rw [List.filter_cons, hb]
      have hpk : ¬ p.1 = key := by rw [hp]; intro hh; exact h hh.symm
      simp only [cond_false, dget, hpk, if_false]
      exact ih
    · have hb : (p.1 != k) = true := by simp [hp]
      rw [List.filter_cons, hb]
      rcases p with ⟨pk, pv⟩
      by_cases hpk : pk = key
      · simp [dget, hpk]
      · simp only [cond_true, dget, hpk, if_false]
        exact ih

@[simp] theorem dget_dset_self (d : List (String × PyVal)) (k : String) (x : PyVal) :
    dget (dset d k x) k = some x := by
  simp [dset, dget]

@[simp] theorem dget_dset_ne (d : List (String × PyVal)) (k : String) (x : PyVal)
    (key : String) (h : ¬ key = k) : dget (dset d k x) key = dget d key := by
  have hk : ¬ k = key := fun hh => h hh.symm
  simp only [dset, dget, hk, if_false]
  exact dget_filter_ne d k key h

@[simp] theorem pyGet_dset_self (d : List (String × PyVal)) (k : String) (x : PyVal) :
    pyGet (dset d k x) k = x := by
  simp [pyGet]

@[simp] theorem pyGet_dset_ne (d : List (String × PyVal)) (k : String) (x : PyVal)
    (key : String) (h : ¬ key = k) : pyGet (dset d k x) key = pyGet d key := by
  simp [pyGet, dget_dset_ne d k x key h]

@[simp] theorem hasKey_dset_self (d : List (String × PyVal)) (k : String) (x : PyVal) :
    hasKey (dset d k x) k = true := by
  simp [hasKey]

@[simp] theorem hasKey_dset_ne (d : List (String × PyVal)) (k : String) (x : PyVal)
    (key : String) (h : ¬ key = k) : hasKey (dset d k x) key = hasKey d key := by
  simp [hasKey, dget_dset_ne d k x key h]

/- ----------------------------------------------------------------- -/
/- `KafkaProducer.publish_job` (src/app/workers/v2/producer.py 52-84) -/
/- ----------------------------------------------------------------- -/

/-- The metadata dict that `publish_job` attaches to every published job:
`{"published_at": time, "producer_id": "embedding_worker", "attempt": 1}`. -/
def producerMetadata : List (String × PyVal) :=
  [("published_at", .timestamp), ("producer_id", .str "embedding_worker"), ("attempt", .int 1)]

/-- Publication `KafkaProducer.publish_job`: the enhanced payload actually sent, namely
`{**job_data, "_metadata": {..., "attempt": 1}}`. -/
def publishJob (jobData : List (String × PyVal)) : List (String × PyVal) :=
  dset jobData "_metadata" (.dict producerMetadata)

/- ------------------------------------------------------------------------ -/
/- `KafkaConsumer._deserialize_message` (src/app/workers/v2/consumer.py 48-99) -/
/- ------------------------------------------------------------------------ -/

/-- The fields `_deserialize_message` requires. -/
def consumerRequiredFields : List String :=
  ["job_id", "tenant_id", "chunk_id", "chunk_content"]

/-- A raw Kafka payload as `_deserialize_message` sees it after UTF-8
decoding: either text `json.loads` rejects (with the error's rendering), or
a JSON object with its bindings and its source text. -/
inductive RawPayload where
  | malformed (raw : String) (jsonError : String)
  | jsonObject (kvs : List (String × PyVal)) (raw : String)

/-- The decoded text of a raw payload. -/
def RawPayload.rawText : RawPayload → String
  | .malformed raw _ => raw
  | .jsonObject _ raw => raw

/-- Deserialization `KafkaConsumer._deserialize_message`.  Never raises: malformed JSON or a
missing required field yields a dict marked `_invalid` with
`validation_error` and the raw payload under `_raw`; otherwise the parsed
dict is returned unchanged. -/
def deserializeMessage : RawPayload → List (String × PyVal)
  | .malformed raw jsonError =>
      [("_invalid", .bool true),
       ("validation_error", .str ("JSONDecodeError: " ++ jsonError)),
       ("_raw", .str raw)]
  | .jsonObject kvs raw =>
      let missing := consumerRequiredFields.filter (fun f => !hasKey kvs f)
      if missing.isEmpty then kvs
      else
        dset (dset (dset kvs "_invalid" (.bool true))
            "validation_error"
            (.str ("Missing required field(s): " ++ String.intercalate ", " missing)))
          "_raw" (.str raw)

/- --------------------------------------------------------------------------- -/
/- `KafkaConsumer._process_message_with_retry` / `_handle_processing_error`     -/
/- (src/app/workers/v2/consumer.py 127-242)                                     -/
/- --------------------------------------------------------------------------- -/

/-- Externally visible actions of one per-message consumer step, in program
order: publications to the retry and dead-letter topics (with the payload
sent), a successful `process_func` return, and the offset commit. -/
inductive KafkaEvent where
  | publishRetry (payload : List (String × PyVal))
  | publishDLQ (payload : List (String × PyVal))
  | processOk
  | commit

/-- The three terminal dispositions of the spec's state machine; the offset
commit itself is not one. -/
def isDisposition : KafkaEvent → Bool
  | .publishRetry _ => true
  | .publishDLQ _ => true
  | .processOk => true
  | .commit => false

/-- Trace scan: `true` iff every `commit` in the trace is preceded by some disposition
event; `seen` records whether a disposition has already occurred. -/
def commitsAfterDisposition : Bool → List KafkaEvent → Bool
  | _, [] => true
  | seen, .commit :: rest => seen && commitsAfterDisposition seen rest
  | seen, e :: rest => commitsAfterDisposition (seen || isDisposition e) rest

/-- Metadata lookup `msg.value.get('_metadata', {})`: an absent key yields `{}`; a present
non-dict value makes the following `.get` attribute access raise, modelled
as `none`. -/
def metaDict (v : List (String × PyVal)) : Option (List (String × PyVal)) :=
  match dget v "_metadata" with
  | Option.none => some []
  | some (.dict m) => some m
  | some _ => Option.none

/-- Attempt lookup `.get('attempt', 1)` on the metadata dict, used as an integer.  Python
booleans are integers (`True` counts as 1); any other non-integer value
would raise `TypeError` in `attempt <= 3`, modelled as `none`. -/
def attemptOf (m : List (String × PyVal)) : Option Int :=
  match dget m "attempt" with
  | Option.none => some 1
  | some (.int n) => some n
  | some (.bool b) => some (if b then 1 else 0)
  | some _ => Option.none

/-- The attempt counter `_handle_processing_error` reads from the incoming
message: `msg.value.get('_metadata', {}).get('attempt', 1)`. -/
def msgAttempt (v : List (String × PyVal)) : Option Int :=
  (metaDict v).bind attemptOf

/-- The republished retry payload: `{**msg.value, "_metadata":
{**msg.value.get('_metadata', {}), "attempt": attempt + 1, "last_error":
str(error), "retry_timestamp": ...}}`. -/
def retryData (v m : List (String × PyVal)) (attempt : Int) (err : String) :
    List (String × PyVal) :=
  dset v "_metadata"
    (.dict (dset (dset (dset m "attempt" (.int (attempt + 1)))
      "last_error" (.str err)) "retry_timestamp" .timestamp))

/-- The dead-letter payload built after max retries: `{**msg.value,
"dlq_reason": f"Max retries exceeded: {error}", "dlq_timestamp": ...}`. -/
def dlqData (v : List (String × PyVal)) (err : String) : List (String × PyVal) :=
  dset (dset v "dlq_reason" (.str ("Max retries exceeded: " ++ err)))
    "dlq_timestamp" .timestamp

/-- The dead-letter payload for a message the deserializer marked invalid:
all fields except `_raw`, plus `dlq_reason` (`validation_error or
'invalid_message'`) and `dlq_timestamp`, with `_raw` re-attached when
present. -/
def invalidDlqPayload (v : List (String × PyVal)) : List (String × PyVal) :=
  let base := v.filter (fun p => p.1 != "_raw")
  let withReason :=
    dset (dset base "dlq_reason"
        (if isTruthy (pyGet v "validation_error") then pyGet v "validation_error"
         else .str "invalid_message"))
      "dlq_timestamp" .timestamp
  if hasKey v "_raw" then dset withReason "_raw" (pyGet v "_raw") else withReason

/-- Result of `_handle_processing_error`: the events it performs, whether it
reached the offset commit, and whether an exception escaped to the consumer
loop (in which case nothing was committed). -/
structure ErrorHandling where
  events : List KafkaEvent
  committed : Bool
  crashed : Bool

/-- Error handler `KafkaConsumer._handle_processing_error` for a message whose processing
raised with `str(error) = err`.  `retrySendOk` / `dlqSendOk` say whether the
corresponding `send_and_wait` (including producer start) succeeds; a failed
send propagates out of the handler, so no commit happens. -/
def handleProcessingError (v : List (String × PyVal)) (err : String)
    (retrySendOk dlqSendOk : Bool) : ErrorHandling :=
  match metaDict v with
  | Option.none => ⟨[], false, true⟩
  | some m =>
    match attemptOf m with
    | Option.none => ⟨[], false, true⟩
    | some attempt =>
      if attempt ≤ 3 then
        if retrySendOk then
          ⟨[.publishRetry (retryData v m attempt err), .commit], true, false⟩
        else ⟨[], false, true⟩
      else
        if dlqSendOk then
          ⟨[.publishDLQ (dlqData v err), .commit], true, false⟩
        else ⟨[], false, true⟩

/-- Result of `_process_message_with_retry` on one dequeued message. -/
structure ConsumerStep where
  events : List KafkaEvent
  processInvoked : Bool
  processedInc : Nat
  failedInc : Nat
  committed : Bool
  crashed : Bool

/-- Message step `KafkaConsumer._process_message_with_retry`.  `procOutcome` is what the
`process_func` argument does on this message (`none`: returns normally,
`some e`: raises with `str(e) = e`); `invalidDlqSendOk` is whether the DLQ
publish in the invalid-message branch succeeds — note that branch catches a
failed publish and still commits.  A processing failure bumps the consumer's
failure counter twice (once in the inner `except`, once in the outer). -/
def processMessageWithRetry (v : List (String × PyVal)) (procOutcome : Option String)
    (invalidDlqSendOk retrySendOk dlqSendOk : Bool) : ConsumerStep :=
  if isTruthy (pyGet v "_invalid") then
    { events := (if invalidDlqSendOk then [.publishDLQ (invalidDlqPayload v)] else [])
        ++ [.commit],
      processInvoked := false, processedInc := 0, failedInc := 1,
      committed := true, crashed := false }
  else
    match procOutcome with
    | Option.none =>
      { events := [.processOk, .commit], processInvoked := true,
        processedInc := 1, failedInc := 0, committed := true, crashed := false }
    | some e =>
      let h := handleProcessingError v e retrySendOk dlqSendOk
      { events := h.events, processInvoked := true, processedInc := 0,
        failedInc := 2, committed := h.committed, crashed := h.crashed }

/- ---------------------------------------------------------------- -/
/- The retry/DLQ chain for a message whose processing always raises -/
/- ---------------------------------------------------------------- -/

/-- First retry-topic payload in a trace, if any. -/
def findRetryPayload : List KafkaEvent → Option (List (String × PyVal))
  | [] => Option.none
  | .publishRetry p :: _ => some p
  | _ :: rest => findRetryPayload rest

/-- Drives one message whose processing always raises (`str(e) = err`)
through the consumer, re-consuming each retry-topic republication (retry
messages are assumed to be delivered back to a consumer running the same
handler); all broker sends succeed.  Returns the per-delivery steps. -/
def alwaysFailRun (err : String) : Nat → List (String × PyVal) → List ConsumerStep
  | 0, _ => []
  | fuel + 1, v =>
    let s := processMessageWithRetry v (some err) true true true
    match findRetryPayload s.events with
    | some p => s :: alwaysFailRun err fuel p
    | Option.none => [s]

def isRetryPublish : KafkaEvent → Bool
  | .publishRetry _ => true
  | _ => false

def isDlqPublish : KafkaEvent → Bool
  | .publishDLQ _ => true
  | _ => false

/-- Total number of retry-topic publications across a run. -/
def countRetryPublishes (steps : List ConsumerStep) : Nat :=
  (steps.map (fun s => (s.events.filter isRetryPublish).length)).sum

/-- Total number of dead-letter publications across a run. -/
def countDlqPublishes (steps : List ConsumerStep) : Nat :=
  (steps.map (fun s => (s.events.filter isDlqPublish).length)).sum

/-- All dead-letter payloads published across a run, in order. -/
def dlqPayloads (steps : List ConsumerStep) : List (List (String × PyVal)) :=
  (steps.map (fun s => s.events.filterMap (fun e =>
    match e with
    | .publishDLQ p => some p
    | _ => Option.none))).flatten

/-- All retry-topic payloads published across a run, in order. -/
def retryPayloads (steps : List ConsumerStep) : List (List (String × PyVal)) :=
  (steps.map (fun s => s.events.filterMap (fun e =>
    match e with
    | .publishRetry p => some p
    | _ => Option.none))).flatten

theorem metaDict_publishJob (d : List (String × PyVal)) :
    metaDict (publishJob d) = some producerMetadata := by
  simp [publishJob, metaDict]

theorem attemptOf_producerMetadata : attemptOf producerMetadata = some 1 := rfl

theorem pyGet_publishJob_invalid (d : List (String × PyVal)) :
    pyGet (publishJob d) "_invalid" = pyGet d "_invalid" := by
  simp [publishJob, pyGet_dset_ne _ _ _ _ (by decide : ¬ ("_invalid" : String) = "_metadata")]

theorem metaDict_retryData (v m : List (String × PyVal)) (a : Int) (e : String) :
    metaDict (retryData v m a e) =
      some (dset (dset (dset m "attempt" (.int (a + 1))) "last_error" (.str e))
        "retry_timestamp" .timestamp) := by
  simp [retryData, metaDict]

theorem attemptOf_retryMeta (m : List (String × PyVal)) (n : Int) (x y : PyVal) :
    attemptOf (dset (dset (dset m "attempt" (.int n)) "last_error" x)
      "retry_timestamp" y) = some n := by
  have h1 : dget (dset (dset (dset m "attempt" (.int n)) "last_error" x)
      "retry_timestamp" y) "attempt" = some (.int n) := by
    rw [dget_dset_ne _ _ _ _ (by decide : ¬ ("attempt" : String) = "retry_timestamp"),
      dget_dset_ne _ _ _ _ (by decide : ¬ ("attempt" : String) = "last_error"),
      dget_dset_self]
  simp [attemptOf, h1]

theorem pyGet_retryData_invalid (v m : List (String × PyVal)) (a : Int) (e : String) :
    pyGet (retryData v m a e) "_invalid" = pyGet v "_invalid" := by
  simp [retryData, pyGet_dset_ne _ _ _ _ (by decide : ¬ ("_invalid" : String) = "_metadata")]

theorem msgAttempt_dlqData (v : List (String × PyVal)) (e : String) :
    msgAttempt (dlqData v e) = msgAttempt v := by
  have h1 : dget (dlqData v e) "_metadata" = dget v "_metadata" := by
    rw [dlqData, dget_dset_ne _ _ _ _ (by decide : ¬ ("_metadata" : String) = "dlq_timestamp"),
      dget_dset_ne _ _ _ _ (by decide : ¬ ("_metadata" : String) = "dlq_reason")]
  simp [msgAttempt, metaDict, h1]

theorem pyGet_dlqData_reason (v : List (String × PyVal)) (e : String) :
    pyGet (dlqData v e) "dlq_reason" = .str ("Max retries exceeded: " ++ e) := by
  rw [dlqData, pyGet_dset_ne _ _ _ _ (by decide : ¬ ("dlq_reason" : String) = "dlq_timestamp"),
    pyGet_dset_self]

theorem append_ne_empty_left (p s : String) (hp : p.length ≠ 0) : ¬ p ++ s = "" := by
  intro h
  have hl := congrArg String.length h
  rw [String.length_append] at hl
  have h0 : ("" : String).length = 0 := rfl
  rw [h0] at hl
  omega

/-- One consumer step on a non-invalid message whose processing raises,
while its attempt counter is still ≤ 3: republish to the retry topic with
the counter bumped, then commit. -/
theorem step_fail_retry (v m : List (String × PyVal)) (err : String)
    (hinv : isTruthy (pyGet v "_invalid") = false)
    (hm : metaDict v = some m) (a : Int) (ha : attemptOf m = some a) (h3 : a ≤ 3) :
    processMessageWithRetry v (some err) true true true =
      ⟨[.publishRetry (retryData v m a err), .commit], true, 0, 2, true, false⟩ := by
  simp [processMessageWithRetry, hinv, handleProcessingError, hm, ha, h3]

/-- One consumer step on a non-invalid message whose processing raises,
after the attempt counter has passed 3: publish to the DLQ, then commit. -/
theorem step_fail_dlq (v m : List (String × PyVal)) (err : String)
    (hinv : isTruthy (pyGet v "_invalid") = false)
    (hm : metaDict v = some m) (a : Int) (ha : attemptOf m = some a) (h3 : ¬ a ≤ 3) :
    processMessageWithRetry v (some err) true true true =
      ⟨[.publishDLQ (dlqData v err), .commit], true, 0, 2, true, false⟩ := by
  simp [processMessageWithRetry, hinv, handleProcessingError, hm, ha, h3]

theorem msgAttempt_retryData (v m : List (String × PyVal)) (a : Int) (e : String) :
    msgAttempt (retryData v m a e) = some (a + 1) := by
  rw [msgAttempt, metaDict_retryData]
  exact attemptOf_retryMeta m (a + 1) (.str e) .timestamp

theorem isTruthy_str (s : String) (h : ¬ s = "") : isTruthy (.str s) = true := by
  simp [isTruthy, h]

theorem alwaysFailRun_succ (err : String) (fuel : Nat) (v : List (String × PyVal)) :
    alwaysFailRun err (fuel + 1) v =
      (let s := processMessageWithRetry v (some err) true true true
       match findRetryPayload s.events with
       | some p => s :: alwaysFailRun err fuel p
       | Option.none => [s]) := rfl

/-- Claim C1 (amended): for every well-formed job message as the producer
publishes it (attempt counter initialised to 1) whose processing always
raises, the consumer republishes it to the retry path exactly three times —
with attempt counters 2, 3 and 4, since `_handle_processing_error` requeues
while `attempt <= 3` — and then publishes it exactly once to the dead-letter
path with `dlq_reason` populated and final attempt count 4. -/
theorem C1_always_fail_three_retries_then_dlq (jobData : List (String × PyVal)) (err : String)
    (h : isTruthy (pyGet jobData "_invalid") = false) :
    countRetryPublishes (alwaysFailRun err 4 (publishJob jobData)) = 3 ∧
    countDlqPublishes (alwaysFailRun err 4 (publishJob jobData)) = 1 ∧
    (retryPayloads (alwaysFailRun err 4 (publishJob jobData))).map msgAttempt =
      [some 2, some 3, some 4] ∧
    (dlqPayloads (alwaysFailRun err 4 (publishJob jobData))).map msgAttempt = [some 4] ∧
    (dlqPayloads (alwaysFailRun err 4 (publishJob jobData))).map
      (fun p => isTruthy (pyGet p "dlq_reason")) = [true] := by
  have hinv0 : isTruthy (pyGet (publishJob jobData) "_invalid") = false := by
    rw [pyGet_publishJob_invalid]; exact h
  set v0 := publishJob jobData with hv0
  set M1 := dset (dset (dset producerMetadata "attempt" (.int (1 + 1)))
    "last_error" (.str err)) "retry_timestamp" PyVal.timestamp with hM1
  set M2 := dset (dset (dset M1 "attempt" (.int (1 + 1 + 1)))
    "last_error" (.str err)) "retry_timestamp" PyVal.timestamp with hM2
  set M3 := dset (dset (dset M2 "attempt" (.int (1 + 1 + 1 + 1)))
    "last_error" (.str err)) "retry_timestamp" PyVal.timestamp with hM3
  set p1 := retryData v0 producerMetadata 1 err with hp1
  set p2 := retryData p1 M1 (1 + 1) err with hp2
  set p3 := retryData p2 M2 (1 + 1 + 1) err with hp3
  have hinv1 : isTruthy (pyGet p1 "_invalid") = false := by
    rw [hp1, pyGet_retryData_invalid]; exact hinv0
  have hinv2 : isTruthy (pyGet p2 "_invalid") = false := by
    rw [hp2, pyGet_retryData_invalid]; exact hinv1
  have hinv3 : isTruthy (pyGet p3 "_invalid") = false := by
    rw [hp3, pyGet_retryData_invalid]; exact hinv2
  have hs1 := step_fail_retry v0 producerMetadata err hinv0
    (by rw [hv0]; exact metaDict_publishJob jobData) 1 attemptOf_producerMetadata
    (by norm_num)
  have hs2 := step_fail_retry p1 M1 err hinv1
    (by rw [hp1, hM1]; exact metaDict_retryData v0 producerMetadata 1 err) (1 + 1)
    (by rw [hM1]; exact attemptOf_retryMeta producerMetadata (1 + 1) (.str err) .timestamp)
    (by norm_num)
  have hs3 := step_fail_retry p2 M2 err hinv2
    (by rw [hp2, hM2]; exact metaDict_retryData p1 M1 (1 + 1) err) (1 + 1 + 1)
    (by rw [hM2]; exact attemptOf_retryMeta M1 (1 + 1 + 1) (.str err) .timestamp)
    (by norm_num)
  have hs4 := step_fail_dlq p3 M3 err hinv3
    (by rw [hp3, hM3]; exact metaDict_retryData p2 M2 (1 + 1 + 1) err) (1 + 1 + 1 + 1)
    (by rw [hM3]; exact attemptOf_retryMeta M2 (1 + 1 + 1 + 1) (.str err) .timestamp)
    (by norm_num)
  have hrun : alwaysFailRun err 4 v0 =
      [⟨[.publishRetry p1, .commit], true, 0, 2, true, false⟩,
       ⟨[.publishRetry p2, .commit], true, 0, 2, true, false⟩,
       ⟨[.publishRetry p3, .commit], true, 0, 2, true, false⟩,
       ⟨[.publishDLQ (dlqData p3 err), .commit], true, 0, 2, true, false⟩] := by
    rw [show (4 : Nat) = 3 + 1 from rfl, alwaysFailRun_succ]
    rw [hs1]
    simp only [findRetryPayload]
    rw [show (3 : Nat) = 2 + 1 from rfl, alwaysFailRun_succ]
    rw [hs2]
    simp only [findRetryPayload]
    rw [show (2 : Nat) = 1 + 1 from rfl, alwaysFailRun_succ]
    rw [hs3]
    simp only [findRetryPayload]
    rw [show (1 : Nat) = 0 + 1 from rfl, alwaysFailRun_succ]
    rw [hs4]
    simp only [findRetryPayload]
  rw [hrun]
  refine ⟨?_, ?_, ?_, ?_, ?_⟩
  · simp [countRetryPublishes, isRetryPublish, List.filter]
  · simp [countDlqPublishes, isDlqPublish, List.filter]
  · simp only [retryPayloads, List.map, List.filterMap, List.flatten]
    simp only [List.map, hp1, hp2, hp3, msgAttempt_retryData]
    norm_num
  · simp only [dlqPayloads, List.map, List.filterMap, List.flatten]
    simp only [List.map, msgAttempt_dlqData, hp3, msgAttempt_retryData]
    norm_num
  · have hne : ¬ ("Max retries exceeded: " ++ err) = "" :=
      append_ne_empty_left "Max retries exceeded: " err (by decide)
    simp [dlqPayloads, pyGet_dlqData_reason, isTruthy_str _ hne]

/-- A concrete well-formed chunk-embedding job payload as built by the
ingestion service before publication. -/
def sampleJobData : List (String × PyVal) :=
  [("job_id", .str "job-1"), ("tenant_id", .str "tenant-1"),
   ("document_id", .str "doc-1"), ("chunk_id", .str "chunk-1"),
   ("chunk_content", .str "hello world"), ("chunk_index", .int 0),
   ("chunk_size", .int 11), ("file_path", .str "uploads/doc.txt")]

/-- Claim C1 (counterexample): the claim says an always-failing message is
republished to the retry path exactly twice and dead-lettered with attempt
count 3.  Running the consumer's own retry state machine on a concrete
producer-published message whose processing always raises gives three retry
republications and a dead-letter record with attempt count 4 (the requeue
condition `attempt <= 3` also requeues the third failure). -/
theorem C1_retry_count_counterexample :
    countRetryPublishes (alwaysFailRun "boom" 10 (publishJob sampleJobData)) = 3 ∧
    ¬ countRetryPublishes (alwaysFailRun "boom" 10 (publishJob sampleJobData)) = 2 ∧
    countDlqPublishes (alwaysFailRun "boom" 10 (publishJob sampleJobData)) = 1 ∧
    (dlqPayloads (alwaysFailRun "boom" 10 (publishJob sampleJobData))).map msgAttempt =
      [some 4] ∧
    ¬ (dlqPayloads (alwaysFailRun "boom" 10 (publishJob sampleJobData))).map msgAttempt =
      [some 3] ∧
    (dlqPayloads (alwaysFailRun "boom" 10 (publishJob sampleJobData))).map
      (fun p => isTruthy (pyGet p "dlq_reason")) = [true] := by
  refine ⟨rfl, by decide, rfl, rfl, by decide, rfl⟩

theorem C1_always_fail_three_retries_then_dlq_witness :
    isTruthy (pyGet sampleJobData "_invalid") = false ∧
    (countRetryPublishes (alwaysFailRun "err" 4 (publishJob sampleJobData)) = 3 ∧
     countDlqPublishes (alwaysFailRun "err" 4 (publishJob sampleJobData)) = 1 ∧
     (retryPayloads (alwaysFailRun "err" 4 (publishJob sampleJobData))).map msgAttempt =
       [some 2, some 3, some 4] ∧
     (dlqPayloads (alwaysFailRun "err" 4 (publishJob sampleJobData))).map msgAttempt =
       [some 4] ∧
     (dlqPayloads (alwaysFailRun "err" 4 (publishJob sampleJobData))).map
       (fun p => isTruthy (pyGet p "dlq_reason")) = [true]) :=
  ⟨by decide, C1_always_fail_three_retries_then_dlq sampleJobData "err" (by decide)⟩

/-- Claim C2 (counterexample): the claim says the offset is committed only
after a terminal disposition on every path.  On the invalid-message branch
the DLQ publish can fail; `_process_message_with_retry` catches that
failure, logs it, and still commits the offset, so the trace is a bare
commit with no disposition before it. -/
theorem C2_commit_without_disposition_counterexample :
    (processMessageWithRetry
        (deserializeMessage (.malformed "not json" "Expecting value"))
        Option.none false true true).committed = true ∧
    commitsAfterDisposition false
      (processMessageWithRetry
        (deserializeMessage (.malformed "not json" "Expecting value"))
        Option.none false true true).events = false :=
  ⟨rfl, rfl⟩

/-- Claim C2 (amended): along every execution path of the per-message step,
the offset commit happens only after one of the three terminal dispositions
(successful processing, retry republish, DLQ publish) — provided that, for
a message marked invalid by the deserializer, the DLQ publish succeeds; in
that branch a failed publish is caught and the offset committed anyway.  On
all other paths a failed publish propagates and nothing is committed. -/
theorem C2_commit_only_after_disposition (v : List (String × PyVal))
    (procOutcome : Option String) (invalidDlqSendOk retrySendOk dlqSendOk : Bool)
    (h : isTruthy (pyGet v "_invalid") = true → invalidDlqSendOk = true) :
    commitsAfterDisposition false
      (processMessageWithRetry v procOutcome invalidDlqSendOk retrySendOk dlqSendOk).events
      = true := by
  by_cases hinv : isTruthy (pyGet v "_invalid") = true
  · rw [h hinv]
    simp [processMessageWithRetry, hinv, commitsAfterDisposition, isDisposition]
  · have hinv' : isTruthy (pyGet v "_invalid") = false := by
      cases hb : isTruthy (pyGet v "_invalid") with
      | false => rfl
      | true => exact absurd hb hinv
    cases procOutcome with
    | none => simp [processMessageWithRetry, hinv', commitsAfterDisposition, isDisposition]
    | some e =>
      simp only [processMessageWithRetry, hinv', Bool.false_eq_true, if_false]
      cases hmd : metaDict v with
      | none => simp [handleProcessingError, hmd, commitsAfterDisposition]
      | some m =>
        cases hat : attemptOf m with
        | none => simp [handleProcessingError, hmd, hat, commitsAfterDisposition]
        | some a =>
          by_cases h3 : a ≤ 3
          · cases retrySendOk with
            | true =>
              simp [handleProcessingError, hmd, hat, h3, commitsAfterDisposition, isDisposition]
            | false => simp [handleProcessingError, hmd, hat, h3, commitsAfterDisposition]
          · cases dlqSendOk with
            | true =>
              simp [handleProcessingError, hmd, hat, h3, commitsAfterDisposition, isDisposition]
            | false => simp [handleProcessingError, hmd, hat, h3, commitsAfterDisposition]

theorem C2_commit_only_after_disposition_witness :
    commitsAfterDisposition false
      (processMessageWithRetry
        (deserializeMessage (.malformed "not json" "Expecting value"))
        Option.none true true true).events = true :=
  C2_commit_only_after_disposition
    (deserializeMessage (.malformed "not json" "Expecting value"))
    Option.none true true true (fun _ => rfl)

/-- The payloads the deserializer rejects: invalid JSON, or a JSON object
missing one of the required fields. -/
def isRejectedPayload : RawPayload → Prop
  | .malformed _ _ => True
  | .jsonObject kvs _ => ∃ f ∈ consumerRequiredFields, hasKey kvs f = false

theorem missingFields_nonempty (kvs : List (String × PyVal)) (f : String)
    (hf : f ∈ consumerRequiredFields) (hk : hasKey kvs f = false) :
    (consumerRequiredFields.filter (fun g => !hasKey kvs g)).isEmpty = false := by
  have hmem : f ∈ consumerRequiredFields.filter (fun g => !hasKey kvs g) :=
    List.mem_filter.mpr ⟨hf, by simp [hk]⟩
  cases hE : (consumerRequiredFields.filter (fun g => !hasKey kvs g)).isEmpty with
  | false => rfl
  | true =>
    rw [List.isEmpty_iff.mp hE] at hmem
    exact absurd hmem (List.not_mem_nil f)

theorem deserialize_jsonObject_missing (kvs : List (String × PyVal)) (raw : String)
    (hm : (consumerRequiredFields.filter (fun g => !hasKey kvs g)).isEmpty = false) :
    deserializeMessage (.jsonObject kvs raw) =
      dset (dset (dset kvs "_invalid" (.bool true))
          "validation_error"
          (.str ("Missing required field(s): " ++
            String.intercalate ", " (consumerRequiredFields.filter (fun g => !hasKey kvs g)))))
        "_raw" (.str raw) := by
  simp [deserializeMessage, hm]

theorem deserialize_rejected_invalid (p : RawPayload) (hp : isRejectedPayload p) :
    isTruthy (pyGet (deserializeMessage p) "_invalid") = true := by
  cases p with
  | malformed raw jsonError => rfl
  | jsonObject kvs raw =>
    obtain ⟨f, hf, hk⟩ := hp
    rw [deserialize_jsonObject_missing kvs raw (missingFields_nonempty kvs f hf hk)]
    rw [pyGet_dset_ne _ _ _ _ (by decide : ¬ ("_invalid" : String) = "_raw"),
      pyGet_dset_ne _ _ _ _ (by decide : ¬ ("_invalid" : String) = "validation_error"),
      pyGet_dset_self]
    rfl

theorem deserialize_rejected_raw (p : RawPayload) (hp : isRejectedPayload p) :
    pyGet (deserializeMessage p) "_raw" = .str p.rawText ∧
    hasKey (deserializeMessage p) "_raw" = true := by
  cases p with
  | malformed raw jsonError => exact ⟨rfl, rfl⟩
  | jsonObject kvs raw =>
    obtain ⟨f, hf, hk⟩ := hp
    rw [deserialize_jsonObject_missing kvs raw (missingFields_nonempty kvs f hf hk)]
    exact ⟨pyGet_dset_self _ _ _, hasKey_dset_self _ _ _⟩

theorem deserialize_rejected_reason (p : RawPayload) (hp : isRejectedPayload p) :
    isTruthy (pyGet (deserializeMessage p) "validation_error") = true := by
  cases p with
  | malformed raw jsonError =>
    have : pyGet (deserializeMessage (.malformed raw jsonError)) "validation_error" =
        .str ("JSONDecodeError: " ++ jsonError) := rfl
    rw [this]
    exact isTruthy_str _ (append_ne_empty_left "JSONDecodeError: " jsonError (by decide))
  | jsonObject kvs raw =>
    obtain ⟨f, hf, hk⟩ := hp
    rw [deserialize_jsonObject_missing kvs raw (missingFields_nonempty kvs f hf hk)]
    rw [pyGet_dset_ne _ _ _ _ (by decide : ¬ ("validation_error" : String) = "_raw"),
      pyGet_dset_self]
    exact isTruthy_str _ (append_ne_empty_left "Missing required field(s): " _ (by decide))

theorem invalidDlqPayload_raw (v : List (String × PyVal)) (hk : hasKey v "_raw" = true) :
    pyGet (invalidDlqPayload v) "_raw" = pyGet v "_raw" := by
  simp only [invalidDlqPayload, hk, if_true]
  exact pyGet_dset_self _ _ _

theorem invalidDlqPayload_reason (v : List (String × PyVal))
    (hve : isTruthy (pyGet v "validation_error") = true) :
    isTruthy (pyGet (invalidDlqPayload v) "dlq_reason") = true := by
  simp only [invalidDlqPayload, hve, if_true]
  by_cases hk : hasKey v "_raw" = true
  · simp only [hk, if_true]
    rw [pyGet_dset_ne _ _ _ _ (by decide : ¬ ("dlq_reason" : String) = "_raw"),
      pyGet_dset_ne _ _ _ _ (by decide : ¬ ("dlq_reason" : String) = "dlq_timestamp"),
      pyGet_dset_self]
    exact hve
  · rw [Bool.not_eq_true] at hk
    simp only [hk, Bool.false_eq_true, if_false]
    rw [pyGet_dset_ne _ _ _ _ (by decide : ¬ ("dlq_reason" : String) = "dlq_timestamp"),
      pyGet_dset_self]
    exact hve

/-- Claim C5: a raw payload that is invalid JSON or lacks a required field
(`job_id`, `tenant_id`, `chunk_id`, `chunk_content`) is marked `_invalid`
by the deserializer (which returns instead of raising), and the consumer
then — whatever `process_func` would do and whether the retry/DLQ producers
for the failure path work — publishes it to the dead-letter path with the
raw payload preserved under `_raw` and `dlq_reason` populated, commits the
offset, and never invokes the processing function. -/
theorem C5_invalid_payload_dead_lettered (p : RawPayload) (hp : isRejectedPayload p)
    (procOutcome : Option String) (retrySendOk dlqSendOk : Bool) :
    isTruthy (pyGet (deserializeMessage p) "_invalid") = true ∧
    (processMessageWithRetry (deserializeMessage p) procOutcome true retrySendOk
        dlqSendOk).events =
      [.publishDLQ (invalidDlqPayload (deserializeMessage p)), .commit] ∧
    (processMessageWithRetry (deserializeMessage p) procOutcome true retrySendOk
        dlqSendOk).processInvoked = false ∧
    (processMessageWithRetry (deserializeMessage p) procOutcome true retrySendOk
        dlqSendOk).committed = true ∧
    pyGet (invalidDlqPayload (deserializeMessage p)) "_raw" = .str p.rawText ∧
    isTruthy (pyGet (invalidDlqPayload (deserializeMessage p)) "dlq_reason") = true := by
  have hinv := deserialize_rejected_invalid p hp
  obtain ⟨hraw, hrawkey⟩ := deserialize_rejected_raw p hp
  refine ⟨hinv, ?_, ?_, ?_, ?_, ?_⟩
  · simp [processMessageWithRetry, hinv]
  · simp [processMessageWithRetry, hinv]
  · simp [processMessageWithRetry, hinv]
  · rw [invalidDlqPayload_raw _ hrawkey, hraw]
  · exact invalidDlqPayload_reason _ (deserialize_rejected_reason p hp)

/-- A payload that parses as JSON but lacks `chunk_content`. -/
def samplePartialPayload : RawPayload :=
  .jsonObject [("job_id", .str "j1"), ("tenant_id", .str "t1"),
    ("chunk_id", .str "c1")] "raw-text"

theorem C5_invalid_payload_dead_lettered_witness :
    isRejectedPayload samplePartialPayload ∧
    (isTruthy (pyGet (deserializeMessage samplePartialPayload) "_invalid") = true ∧
     (processMessageWithRetry (deserializeMessage samplePartialPayload)
         (some "never") true true true).events =
       [.publishDLQ (invalidDlqPayload (deserializeMessage samplePartialPayload)), .commit] ∧
     (processMessageWithRetry (deserializeMessage samplePartialPayload)
         (some "never") true true true).processInvoked = false ∧
     (processMessageWithRetry (deserializeMessage samplePartialPayload)
         (some "never") true true true).committed = true ∧
     pyGet (invalidDlqPayload (deserializeMessage samplePartialPayload)) "_raw" =
       .str samplePartialPayload.rawText ∧
     isTruthy (pyGet (invalidDlqPayload (deserializeMessage samplePartialPayload))
       "dlq_reason") = true) := by
  have hp : isRejectedPayload samplePartialPayload :=
    ⟨"chunk_content", by decide, by decide⟩
  exact ⟨hp,
    C5_invalid_payload_dead_lettered samplePartialPayload hp (some "never") true true⟩

/- ----------------------------------------------------- -/
/- `TaskProcessor` (src/app/workers/v2/tasks.py)          -/
/- ----------------------------------------------------- -/

/-- Status enum `JobStatus` (src/app/db/models/embedding_job.py). -/
inductive JobStatus where
  | pending
  | processing
  | completed
  | failed
deriving Repr, DecidableEq

/-- The `EmbeddingJob` row fields `process_ingestion_job` reads and
writes. -/
structure JobRow where
  status : JobStatus
  errorMessage : Option String
deriving Repr, DecidableEq

/-- The committed relational state the worker touches: the job row (absent
when the id matches no row) and the chunk row's nullable `embedding_id`. -/
structure WorkerDB where
  job : Option JobRow
  chunkEmbeddingId : Option String
deriving Repr, DecidableEq

/-- Python string slicing `s[:n]` (on code points). -/
def pyTake (s : String) (n : Nat) : String := String.mk (s.data.take n)

/-- Status update `TaskProcessor._update_job_status` as a pure update of committed state:
look up the job row under lock (`none` row: return without writing), set
`status`, set `error_message` to the 500-character truncation only when the
error string is truthy (`if error_message:`), commit. -/
def updateJobStatus (db : WorkerDB) (status : JobStatus)
    (errorMessage : Option String) : WorkerDB :=
  match db.job with
  | Option.none => db
  | some j =>
    let em : Option String :=
      match errorMessage with
      | some e => if e = "" then j.errorMessage else some (pyTake e 500)
      | Option.none => j.errorMessage
    { db with job := some { status := status, errorMessage := em } }

/-- Validation `TaskProcessor._validate_job_data`: every required field present and
truthy (`if field not in job_data or not job_data[field]`). -/
def workerRequiredFields : List String :=
  ["job_id", "tenant_id", "document_id", "chunk_id", "chunk_content"]

def validateJobData (jobData : List (String × PyVal)) : Bool :=
  workerRequiredFields.all (fun f => hasKey jobData f && isTruthy (pyGet jobData f))

/-- Which of the worker's fallible collaborator calls raise during one run
of `process_ingestion_job` (each `true` = the call raises after its own
bounded in-call retry is exhausted). -/
structure WorkerOracle where
  updProcessingRaises : Bool
  embedRaises : Bool
  storeRaises : Bool
  chunkLookupRaises : Bool
  chunkFound : Bool
  updCompletedRaises : Bool
  updFailedRaises : Bool
deriving Repr, DecidableEq

/-- The outer `except Exception` of `process_ingestion_job`: try to mark the
job failed with the error text; a failure of that update is caught and
logged (`except Exception as db_error`), leaving the state unchanged. -/
def failurePath (o : WorkerOracle) (errText : String) (db : WorkerDB) : WorkerDB :=
  if o.updFailedRaises then db else updateJobStatus db .failed (some errText)

/-- Final committed state and processor-counter increments of one worker
run. -/
structure WorkerRun where
  db : WorkerDB
  processedInc : Nat
  failedInc : Nat
deriving Repr, DecidableEq

/-- Main handler `TaskProcessor.process_ingestion_job` for the message `jobData` whose
chunk id is `chunkId`; `errText` is `str(e)` of whichever exception the
oracle makes the run raise.  The chunk row's `embedding_id` assignment is
session-pending until the next successful commit (the one inside the
`completed` status update); the rollback performed by a failing
`_update_job_status` discards it.  The top-level `except` swallows every
processing error — the function never raises. -/
def processIngestionJob (o : WorkerOracle) (errText chunkId : String)
    (jobData : List (String × PyVal)) (db : WorkerDB) : WorkerRun :=
  if !validateJobData jobData then ⟨db, 0, 1⟩
  else if o.updProcessingRaises then ⟨failurePath o errText db, 0, 1⟩
  else
    match db.job with
    | Option.none => ⟨db, 0, 1⟩
    | some j =>
      let db1 : WorkerDB := { db with job := some { j with status := .processing } }
      if o.embedRaises then ⟨failurePath o errText db1, 0, 1⟩
      else if o.storeRaises then ⟨failurePath o errText db1, 0, 1⟩
      else
        let pendingChunk : Option String :=
          if o.chunkLookupRaises then Option.none
          else if o.chunkFound then some chunkId else Option.none
        if o.updCompletedRaises then ⟨failurePath o errText db1, 0, 1⟩
        else
          ⟨{ job := some { status := .completed, errorMessage := j.errorMessage },
             chunkEmbeddingId :=
               match pendingChunk with
               | some c => some c
               | Option.none => db1.chunkEmbeddingId }, 1, 0⟩

/-- The consumer step with `process_ingestion_job` as `process_func` (the
wiring in `IngestionWorker.run`): the worker's top-level `except` swallows
processing errors, so the `process_func` call always returns normally and
the consumer observes success whenever the message was not marked
invalid. -/
def consumerStepWithWorker (o : WorkerOracle) (errText chunkId : String)
    (v : List (String × PyVal)) (db : WorkerDB)
    (invalidDlqSendOk retrySendOk dlqSendOk : Bool) : ConsumerStep × WorkerDB :=
  if isTruthy (pyGet v "_invalid") then
    (processMessageWithRetry v Option.none invalidDlqSendOk retrySendOk dlqSendOk, db)
  else
    (processMessageWithRetry v Option.none invalidDlqSendOk retrySendOk dlqSendOk,
     (processIngestionJob o errText chunkId v db).db)

theorem failurePath_status (o : WorkerOracle) (e : String) (db : WorkerDB) :
    ((failurePath o e db).job).map JobRow.status = db.job.map JobRow.status ∨
    ((failurePath o e db).job).map JobRow.status = some .failed := by
  unfold failurePath
  split
  · left; rfl
  · rcases db with ⟨jo, ce⟩
    cases jo <;> simp [updateJobStatus]

theorem failurePath_chunk (o : WorkerOracle) (e : String) (db : WorkerDB) :
    (failurePath o e db).chunkEmbeddingId = db.chunkEmbeddingId := by
  unfold failurePath
  split
  · rfl
  · rcases db with ⟨jo, ce⟩
    cases jo <;> simp [updateJobStatus]

/-- Every status the worker writes is `processing`, `completed` or `failed`;
a run either leaves the job row's status untouched or moves it to one of
those — it never writes `pending`. -/
theorem processIngestionJob_status (o : WorkerOracle) (e c : String)
    (jd : List (String × PyVal)) (db : WorkerDB) :
    ((processIngestionJob o e c jd db).db.job).map JobRow.status =
        db.job.map JobRow.status ∨
    ((processIngestionJob o e c jd db).db.job).map JobRow.status = some .processing ∨
    ((processIngestionJob o e c jd db).db.job).map JobRow.status = some .completed ∨
    ((processIngestionJob o e c jd db).db.job).map JobRow.status = some .failed := by
  rcases o with ⟨u1, u2, u3, u4, u5, u6, u7⟩
  rcases db with ⟨jo, ce⟩
  by_cases hv : validateJobData jd
  · cases jo with
    | none =>
      cases u1 <;> cases u7 <;>
        simp [processIngestionJob, failurePath, updateJobStatus, hv]
    | some j =>
      cases u1 <;> cases u2 <;> cases u3 <;> cases u4 <;> cases u5 <;> cases u6 <;>
        cases u7 <;> simp [processIngestionJob, failurePath, updateJobStatus, hv]
  · simp [processIngestionJob, hv]

/-- A run started with the chunk's `embedding_id` unset sets it only on the
path that also marks the job `completed`, and then to the chunk id. -/
theorem processIngestionJob_chunk_only_if_completed (o : WorkerOracle) (e c : String)
    (jd : List (String × PyVal)) (j : JobRow)
    (h : (processIngestionJob o e c jd ⟨some j, Option.none⟩).db.chunkEmbeddingId ≠
      Option.none) :
    (processIngestionJob o e c jd ⟨some j, Option.none⟩).db.job.map JobRow.status =
      some .completed ∧
    (processIngestionJob o e c jd ⟨some j, Option.none⟩).db.chunkEmbeddingId = some c := by
  revert h
  rcases o with ⟨u1, u2, u3, u4, u5, u6, u7⟩
  by_cases hv : validateJobData jd
  · cases u1 <;> cases u2 <;> cases u3 <;> cases u4 <;> cases u5 <;> cases u6 <;>
      cases u7 <;> simp [processIngestionJob, failurePath, updateJobStatus, hv]
  · simp [processIngestionJob, hv]

/-- Claim C3 (counterexample): the claim says the job row is set to `failed`
only when message-level retries are exhausted, and not on a mid-retry
failure.  On a concrete first-delivery message (attempt counter 1, so
retries are nowhere near exhausted) whose embedding call raises, the worker
immediately marks the job row `failed`; moreover the exception is swallowed,
so the consumer sees success, commits, and performs no retry republish at
all. -/
theorem C3_failed_on_first_error_counterexample :
    msgAttempt (publishJob sampleJobData) = some 1 ∧
    (consumerStepWithWorker ⟨false, true, false, false, false, false, false⟩ "boom" "chunk-1"
        (publishJob sampleJobData) ⟨some ⟨.pending, Option.none⟩, Option.none⟩
        true true true).2.job = some ⟨.failed, some "boom"⟩ ∧
    (consumerStepWithWorker ⟨false, true, false, false, false, false, false⟩ "boom" "chunk-1"
        (publishJob sampleJobData) ⟨some ⟨.pending, Option.none⟩, Option.none⟩
        true true true).1 =
      ⟨[.processOk, .commit], true, 1, 0, true, false⟩ := by
  refine ⟨rfl, by decide, rfl⟩

/-- Claim C3 (amended): job status is monotone out of `pending` — no run of
the worker ever writes `pending` back — but `failed` is not reserved for
retry exhaustion: on any processing error (here: the embedding call raises
on a first delivery) the worker marks the job row `failed` immediately and
swallows the exception, so the consumer records a success, commits, and
never republishes to the retry path. -/
theorem C3_no_pending_return_failed_on_first_error (o : WorkerOracle) (e c : String)
    (jd : List (String × PyVal)) (db : WorkerDB) :
    (db.job.map JobRow.status ≠ some .pending →
      (processIngestionJob o e c jd db).db.job.map JobRow.status ≠ some .pending) ∧
    (validateJobData jd = true → ¬ e = "" → isTruthy (pyGet jd "_invalid") = false →
      (consumerStepWithWorker ⟨false, true, false, false, false, false, false⟩ e c jd
          ⟨some ⟨.pending, Option.none⟩, Option.none⟩ true true true).2 =
        ⟨some ⟨.failed, some (pyTake e 500)⟩, Option.none⟩ ∧
      (consumerStepWithWorker ⟨false, true, false, false, false, false, false⟩ e c jd
          ⟨some ⟨.pending, Option.none⟩, Option.none⟩ true true true).1 =
        ⟨[.processOk, .commit], true, 1, 0, true, false⟩) := by
  constructor
  · intro hnp
    rcases processIngestionJob_status o e c jd db with h | h | h | h <;> rw [h]
    · exact hnp
    all_goals simp
  · intro hv he hinv
    constructor
    · simp [consumerStepWithWorker, hinv, processIngestionJob, hv, failurePath,
        updateJobStatus, he]
    · simp [consumerStepWithWorker, hinv, processMessageWithRetry]

theorem C3_no_pending_return_failed_on_first_error_witness :
    ((⟨some ⟨.pending, Option.none⟩, Option.none⟩ : WorkerDB).job.map JobRow.status ≠
        some JobStatus.pending →
      (processIngestionJob ⟨false, true, false, false, false, false, false⟩ "boom" "chunk-1"
          (publishJob sampleJobData)
          ⟨some ⟨.pending, Option.none⟩, Option.none⟩).db.job.map JobRow.status ≠
        some JobStatus.pending) ∧
    (validateJobData (publishJob sampleJobData) = true → ¬ "boom" = "" →
      isTruthy (pyGet (publishJob sampleJobData) "_invalid") = false →
      (consumerStepWithWorker ⟨false, true, false, false, false, false, false⟩ "boom"
          "chunk-1" (publishJob sampleJobData)
          ⟨some ⟨.pending, Option.none⟩, Option.none⟩ true true true).2 =
        ⟨some ⟨.failed, some (pyTake "boom" 500)⟩, Option.none⟩ ∧
      (consumerStepWithWorker ⟨false, true, false, false, false, false, false⟩ "boom"
          "chunk-1" (publishJob sampleJobData)
          ⟨some ⟨.pending, Option.none⟩, Option.none⟩ true true true).1 =
        ⟨[.processOk, .commit], true, 1, 0, true, false⟩) :=
  C3_no_pending_return_failed_on_first_error
    ⟨false, true, false, false, false, false, false⟩ "boom" "chunk-1"
    (publishJob sampleJobData) ⟨some ⟨.pending, Option.none⟩, Option.none⟩

/-- Claim C4 (counterexample): the claim says a chunk's `embedding_id` is set
iff its job reached `completed`.  When the chunk-row update raises a
database error, `process_ingestion_job` logs and continues ("Don't fail the
entire job if chunk update fails") and still marks the job `completed`, so
the job is `completed` while `embedding_id` stays null. -/
theorem C4_completed_without_embedding_counterexample :
    (processIngestionJob ⟨false, false, false, true, true, false, false⟩ "e" "chunk-1"
        (publishJob sampleJobData) ⟨some ⟨.pending, Option.none⟩, Option.none⟩).db =
      ⟨some ⟨.completed, Option.none⟩, Option.none⟩ ∧
    (processIngestionJob ⟨false, false, false, true, true, false, false⟩ "e" "chunk-1"
        (publishJob sampleJobData)
        ⟨some ⟨.pending, Option.none⟩, Option.none⟩).db.job.map JobRow.status =
      some JobStatus.completed ∧
    (processIngestionJob ⟨false, false, false, true, true, false, false⟩ "e" "chunk-1"
        (publishJob sampleJobData)
        ⟨some ⟨.pending, Option.none⟩, Option.none⟩).db.chunkEmbeddingId = Option.none := by
  refine ⟨by decide, by decide, by decide⟩

/-- Claim C4 (amended): starting from a chunk whose `embedding_id` is unset,
no run that fails to complete the job sets it (it is set only on the
completing path, to the chunk id), and a fully successful run with the
chunk row present marks the job `completed` and sets it; but a run can mark
the job `completed` without setting `embedding_id` when the chunk lookup
fails or the chunk row is missing. -/
theorem C4_embedding_set_only_if_completed (o : WorkerOracle) (e c : String)
    (jd : List (String × PyVal)) (j : JobRow) :
    ((processIngestionJob o e c jd ⟨some j, Option.none⟩).db.chunkEmbeddingId ≠
        Option.none →
      (processIngestionJob o e c jd ⟨some j, Option.none⟩).db.job.map JobRow.status =
        some .completed ∧
      (processIngestionJob o e c jd ⟨some j, Option.none⟩).db.chunkEmbeddingId = some c) ∧
    (validateJobData jd = true →
      (processIngestionJob ⟨false, false, false, false, true, false, false⟩ e c jd
          ⟨some j, Option.none⟩).db = ⟨some ⟨.completed, j.errorMessage⟩, some c⟩) := by
  constructor
  · exact processIngestionJob_chunk_only_if_completed o e c jd j
  · intro hv
    simp [processIngestionJob, hv]

theorem C4_embedding_set_only_if_completed_witness :
    ((processIngestionJob ⟨false, false, false, false, true, false, false⟩ "e" "chunk-1"
          (publishJob sampleJobData)
          ⟨some ⟨.pending, Option.none⟩, Option.none⟩).db.chunkEmbeddingId ≠
        Option.none →
      (processIngestionJob ⟨false, false, false, false, true, false, false⟩ "e" "chunk-1"
          (publishJob sampleJobData)
          ⟨some ⟨.pending, Option.none⟩, Option.none⟩).db.job.map JobRow.status =
        some JobStatus.completed ∧
      (processIngestionJob ⟨false, false, false, false, true, false, false⟩ "e" "chunk-1"
          (publishJob sampleJobData)
          ⟨some ⟨.pending, Option.none⟩, Option.none⟩).db.chunkEmbeddingId =
        some "chunk-1") ∧
    (validateJobData (publishJob sampleJobData) = true →
      (processIngestionJob ⟨false, false, false, false, true, false, false⟩ "e" "chunk-1"
          (publishJob sampleJobData) ⟨some ⟨.pending, Option.none⟩, Option.none⟩).db =
        ⟨some ⟨.completed, (⟨.pending, Option.none⟩ : JobRow).errorMessage⟩,
          some "chunk-1"⟩) :=
  C4_embedding_set_only_if_completed
    ⟨false, false, false, false, true, false, false⟩ "e" "chunk-1"
    (publishJob sampleJobData) ⟨.pending, Option.none⟩

/-- Claim C8 (counterexample): the claim says a successful run clears any
prior `error_message`.  `_update_job_status` only assigns `error_message`
when one is passed and truthy (`if error_message:`); the `completed` update
passes none, so a job retried after an earlier failure keeps its stale
error text alongside `status = completed`. -/
theorem C8_error_not_cleared_counterexample :
    (processIngestionJob ⟨false, false, false, false, true, false, false⟩ "" "chunk-1"
        (publishJob sampleJobData)
        ⟨some ⟨.pending, some "previous failure"⟩, Option.none⟩).db.job =
      some ⟨.completed, some "previous failure"⟩ := by
  decide

/-- Claim C8 (amended): on success the job row is marked `completed` with the
prior `error_message` left unchanged (not cleared); on failure it is marked
`failed` with `error_message` set to the first 500 characters of the error
string (when that string is non-empty), which is at most 500 characters
long. -/
theorem C8_completed_keeps_error_failed_truncates (e c : String)
    (jd : List (String × PyVal)) (em : Option String)
    (hv : validateJobData jd = true) (he : ¬ e = "") :
    (processIngestionJob ⟨false, false, false, false, true, false, false⟩ e c jd
        ⟨some ⟨.pending, em⟩, Option.none⟩).db.job = some ⟨.completed, em⟩ ∧
    (processIngestionJob ⟨false, true, false, false, false, false, false⟩ e c jd
        ⟨some ⟨.pending, em⟩, Option.none⟩).db.job =
      some ⟨.failed, some (pyTake e 500)⟩ ∧
    (pyTake e 500).length ≤ 500 := by
  refine ⟨?_, ?_, ?_⟩
  · simp [processIngestionJob, hv]
  · simp [processIngestionJob, hv, failurePath, updateJobStatus, he]
  · show (e.data.take 500).length ≤ 500
    exact List.length_take_le 500 e.data

theorem C8_completed_keeps_error_failed_truncates_witness :
    validateJobData (publishJob sampleJobData) = true ∧ ¬ "boom" = "" ∧
    ((processIngestionJob ⟨false, false, false, false, true, false, false⟩ "boom" "chunk-1"
        (publishJob sampleJobData)
        ⟨some ⟨.pending, some "old"⟩, Option.none⟩).db.job =
      some ⟨.completed, some "old"⟩ ∧
    (processIngestionJob ⟨false, true, false, false, false, false, false⟩ "boom" "chunk-1"
        (publishJob sampleJobData)
        ⟨some ⟨.pending, some "old"⟩, Option.none⟩).db.job =
      some ⟨.failed, some (pyTake "boom" 500)⟩ ∧
    (pyTake "boom" 500).length ≤ 500) :=
  ⟨by decide, by decide,
   C8_completed_keeps_error_failed_truncates "boom" "chunk-1"
     (publishJob sampleJobData) (some "old") (by decide) (by decide)⟩

/-- Claim C9: a message that passes the deserializer's presence check (all of
`job_id`, `tenant_id`, `chunk_id`, `chunk_content` present, not marked
invalid) but fails the worker's stricter truthiness/`document_id` check is
returned unchanged by the deserializer, and the worker returns early
without raising and without touching the database; the consumer therefore
commits the offset and counts the message as processed, and no retry or
DLQ publication happens. -/
theorem C9_sub_validation_processed_and_committed (v : List (String × PyVal))
    (raw : String) (o : WorkerOracle) (e c : String) (db : WorkerDB)
    (iOk rOk dOk : Bool)
    (hfields : ∀ f ∈ consumerRequiredFields, hasKey v f = true)
    (hinv : isTruthy (pyGet v "_invalid") = false)
    (hval : validateJobData v = false) :
    deserializeMessage (.jsonObject v raw) = v ∧
    (consumerStepWithWorker o e c v db iOk rOk dOk).1 =
      ⟨[.processOk, .commit], true, 1, 0, true, false⟩ ∧
    (consumerStepWithWorker o e c v db iOk rOk dOk).2 = db := by
  refine ⟨?_, ?_, ?_⟩
  · have hm : consumerRequiredFields.filter (fun g => !hasKey v g) = [] := by
      rw [List.filter_eq_nil_iff]
      intro a ha
      simp [hfields a ha]
    simp [deserializeMessage, hm]
  · simp [consumerStepWithWorker, hinv, processMessageWithRetry]
  · simp [consumerStepWithWorker, hinv, processIngestionJob, hval]

theorem C9_sub_validation_processed_and_committed_witness :
    (∀ f ∈ consumerRequiredFields,
      hasKey [("job_id", PyVal.str "j1"), ("tenant_id", PyVal.str "t1"),
        ("chunk_id", PyVal.str "c1"), ("chunk_content", PyVal.str "")] f = true) ∧
    (deserializeMessage (.jsonObject [("job_id", PyVal.str "j1"),
        ("tenant_id", PyVal.str "t1"), ("chunk_id", PyVal.str "c1"),
        ("chunk_content", PyVal.str "")] "raw") =
      [("job_id", PyVal.str "j1"), ("tenant_id", PyVal.str "t1"),
        ("chunk_id", PyVal.str "c1"), ("chunk_content", PyVal.str "")] ∧
    (consumerStepWithWorker ⟨false, false, false, false, true, false, false⟩ "e" "c"
        [("job_id", PyVal.str "j1"), ("tenant_id", PyVal.str "t1"),
          ("chunk_id", PyVal.str "c1"), ("chunk_content", PyVal.str "")]
        ⟨some ⟨.pending, Option.none⟩, Option.none⟩ true true true).1 =
      ⟨[.processOk, .commit], true, 1, 0, true, false⟩ ∧
    (consumerStepWithWorker ⟨false, false, false, false, true, false, false⟩ "e" "c"
        [("job_id", PyVal.str "j1"), ("tenant_id", PyVal.str "t1"),
          ("chunk_id", PyVal.str "c1"), ("chunk_content", PyVal.str "")]
        ⟨some ⟨.pending, Option.none⟩, Option.none⟩ true true true).2 =
      ⟨some ⟨.pending, Option.none⟩, Option.none⟩) :=
  ⟨by decide,
   C9_sub_validation_processed_and_committed
     [("job_id", PyVal.str "j1"), ("tenant_id", PyVal.str "t1"),
       ("chunk_id", PyVal.str "c1"), ("chunk_content", PyVal.str "")] "raw"
     ⟨false, false, false, false, true, false, false⟩ "e" "c"
     ⟨some ⟨.pending, Option.none⟩, Option.none⟩ true true true
     (by decide) (by decide) (by decide)⟩

/- ------------------------------------------------------- -/
/- `HealthMonitor.check_health` (src/app/workers/v2/worker.py 21-43) -/
/- ------------------------------------------------------- -/

/-- The degraded test of `HealthMonitor.check_health`:
`processor_stats.get('failed_jobs', 0) > processor_stats.get('processed_jobs', 0) * 0.5`,
where the stats are the task processor's processed/failed counters.
Python compares the integer counter to the float product exactly (counters
stay far below 2^53), so the comparison is the exact rational one. -/
def checkHealthDegraded (processedJobs failedJobs : Nat) : Bool :=
  decide ((failedJobs : ℚ) > (processedJobs : ℚ) * (1 / 2))

/-- Claim C10 (counterexample): the claim says the status is degraded exactly
when `failed / (processed + failed) > 0.5`.  With 3 processed and 2 failed
jobs the code reports degraded (2 > 3 · 0.5), but the failure ratio of the
combined total is 2/5 ≤ 0.5. -/
theorem C10_degraded_ratio_counterexample :
    checkHealthDegraded 3 2 = true ∧
    ¬ ((2 : ℚ) / ((3 : ℚ) + 2) > 1 / 2) := by
  constructor
  · rw [checkHealthDegraded, decide_eq_true_eq]
    norm_num
  · norm_num

/-- Claim C10 (amended): the health check reports degraded exactly when the
failed count exceeds half of the *processed* count (`failed > processed ·
0.5`, i.e. `2 · failed > processed`), not half of the combined
processed+failed total. -/
theorem C10_degraded_iff_failed_exceeds_half_processed (p f : Nat) :
    checkHealthDegraded p f = decide (2 * f > p) := by
  rw [checkHealthDegraded, decide_eq_decide]
  constructor
  · intro h
    have h2 : ((2 * f : Nat) : ℚ) > ((p : Nat) : ℚ) := by push_cast; linarith
    exact_mod_cast h2
  · intro h
    have h2 : ((2 * f : Nat) : ℚ) > ((p : Nat) : ℚ) := by exact_mod_cast h
    push_cast at h2
    linarith
